import Mathlib

/-!
Verification of the nucypher field-specification layer
(src/nucypher/control/specifications/fields/base.py and
src/nucypher/characters/control/specifications/fields/label.py).

The Python fields are thin subclasses of marshmallow 3.x field classes;
the embedding therefore models the marshmallow base-class semantics the
source inherits (Field.deserialize, fields.String, fields.Integer,
fields.List) together with the Python builtins the source calls
(str.split, int(), bytes.decode, str.encode), and on top of those the
repository's own classes: BaseField, String, List, StringList, Integer,
PositiveInteger and Label.
-/

/-- Dynamic Python values crossing the field layer: text (str), byte
strings (bytes, as lists of byte values 0..255), integers (int), ordered
sequences (list) and None. -/
inductive Value where
  | vStr (s : String)
  | vBytes (b : List Nat)
  | vInt (n : Int)
  | vList (l : List Value)
  | vNone

/-- Errors the field layer can raise.  `validation` and `validationList`
model marshmallow's ValidationError (the latter is the indexed error dict
raised by fields.List).  `invalidInputData` models
nucypher.control.specifications.exceptions.InvalidInputData; that module
is not part of the sources here, so it is modelled from the spec: the
spec's section 7 treats it as the layer's single ValidationError kind.
`attributeError`, `typeError`, `valueError` and `unicodeDecodeError`
model the corresponding Python exceptions, which are not validation
errors and propagate uncaught through this layer. -/
inductive FieldError where
  | validation (msg : String)
  | validationList (errors : List (Nat × FieldError))
  | invalidInputData (msg : String)
  | attributeError (typeName attrName : String)
  | typeError (msg : String)
  | valueError (msg : String)
  | unicodeDecodeError

/-- Whether an error is of the validation kind (caught and reported by
the schema layer), as opposed to a propagated Python programming error. -/
def isValidationError : FieldError → Bool
  | .validation _ => true
  | .validationList _ => true
  | .invalidInputData _ => true
  | .attributeError _ _ => false
  | .typeError _ => false
  | .valueError _ => false
  | .unicodeDecodeError => false

/-! ## Python primitives used by the source -/

/-- If sep is a prefix of l, the remainder of l after it. -/
def dropPrefixOfChars : List Char → List Char → Option (List Char)
  | [], l => some l
  | _ :: _, [] => none
  | s :: ss, c :: cs => if c = s then dropPrefixOfChars ss cs else none

/-- Splitting loop: scan left to right, cutting a segment at every
leftmost occurrence of the separator, keeping empty segments.  The fuel
argument bounds the scan (the wrapper passes the input length, and each
step consumes at least one character, so the fallback row is never
reached there). -/
def splitGo (sep : List Char) : Nat → List Char → List Char → List (List Char)
  | _, [], cur => [cur.reverse]
  | 0, c :: cs, cur => [cur.reverse ++ c :: cs]
  | fuel + 1, c :: cs, cur =>
    match dropPrefixOfChars sep (c :: cs) with
    | some rest => cur.reverse :: splitGo sep fuel rest []
    | none => splitGo sep fuel cs (c :: cur)

/-- Python str.split with a non-empty separator: every segment between
consecutive leftmost separator occurrences is kept, including empty
ones, so "a,,b" split on "," is ["a", "", "b"] and "" splits to [""].
(Python raises ValueError on an empty separator; the StringList default
"," is non-empty and no field here configures an empty one.) -/
def pySplit (s sep : String) : List String :=
  (splitGo sep.data s.data.length s.data []).map fun l => String.mk l

/-- ASCII whitespace stripped by Python's int() around a numeral. -/
def pyIsSpace (c : Char) : Bool :=
  c = ' ' || c = '\t' || c = '\n' || c = '\r' || c = '\x0b' || c = '\x0c'

/-- Strip leading and trailing whitespace from a character list. -/
def trimChars (l : List Char) : List Char :=
  ((l.dropWhile pyIsSpace).reverse.dropWhile pyIsSpace).reverse

/-- Digits of a Python decimal numeral after its first digit: a run of
ASCII digits in which a single underscore may stand between two digits
(Python 3 permits 1_000; a leading, trailing or doubled underscore is a
ValueError).  Accumulates the value in base 10; the flag records whether
the previous character was an underscore, which must be followed by a
digit. -/
def pyParseDigits : Nat → Bool → List Char → Option Nat
  | acc, afterUnderscore, [] => if afterUnderscore then none else some acc
  | acc, afterUnderscore, c :: cs =>
    if c.isDigit then pyParseDigits (acc * 10 + (c.toNat - 48)) false cs
    else if c = '_' then
      if afterUnderscore then none else pyParseDigits acc true cs
    else none

/-- Python int(str): strip whitespace, optional sign, then a non-empty
decimal digit run (with Python's underscore grouping).  Returns none
where Python raises ValueError.  (Python also accepts non-ASCII decimal
digits; those never arise in this repository.) -/
def pyIntOfString (s : String) : Option Int :=
  match trimChars s.data with
  | '+' :: c :: cs =>
    if c.isDigit then (pyParseDigits (c.toNat - 48) false cs).map Int.ofNat else none
  | '-' :: c :: cs =>
    if c.isDigit then (pyParseDigits (c.toNat - 48) false cs).map (fun n => -(n : Int)) else none
  | c :: cs =>
    if c.isDigit then (pyParseDigits (c.toNat - 48) false cs).map Int.ofNat else none
  | [] => none

/-! ## UTF-8 (str.encode / bytes.decode, both strict) -/

/-- UTF-8 encoding of one unicode scalar value. -/
def utf8EncodeCp (c : Nat) : List Nat :=
  if c < 0x80 then [c]
  else if c < 0x800 then [0xC0 + c / 0x40, 0x80 + c % 0x40]
  else if c < 0x10000 then
    [0xE0 + c / 0x1000, 0x80 + c / 0x40 % 0x40, 0x80 + c % 0x40]
  else
    [0xF0 + c / 0x40000, 0x80 + c / 0x1000 % 0x40, 0x80 + c / 0x40 % 0x40, 0x80 + c % 0x40]

/-- UTF-8 encoding of a list of unicode scalar values. -/
def utf8EncodeCps (cps : List Nat) : List Nat :=
  cps.flatMap utf8EncodeCp

/-- Python str.encode() (UTF-8): every Python str is a sequence of
unicode scalar values, encoded codepoint by codepoint. -/
def utf8Encode (s : String) : List Nat :=
  utf8EncodeCps (s.data.map Char.toNat)

/-- A UTF-8 continuation byte. -/
def isCont (b : Nat) : Bool :=
  0x80 ≤ b && b < 0xC0

/-- Strict UTF-8 decoder on byte lists, returning the codepoint list, or
none on malformed input (truncated sequences, stray continuation bytes,
overlong encodings, surrogates, codepoints beyond 0x10FFFF) exactly as
Python's bytes.decode in its default strict mode.  The fuel argument is
an upper bound on the number of bytes (the wrapper passes the length);
the recursion consumes at least one byte per step. -/
def utf8DecodeGo : Nat → List Nat → Option (List Nat)
  | _, [] => some []
  | 0, _ :: _ => none
  | fuel + 1, b1 :: rest =>
    if b1 < 0x80 then
      (utf8DecodeGo fuel rest).map fun cps => b1 :: cps
    else if b1 < 0xC2 then none
    else if b1 < 0xE0 then
      match rest with
      | b2 :: rest2 =>
        if isCont b2 then
          (utf8DecodeGo fuel rest2).map fun cps =>
            ((b1 - 0xC0) * 0x40 + (b2 - 0x80)) :: cps
        else none
      | [] => none
    else if b1 < 0xF0 then
      match rest with
      | b2 :: b3 :: rest3 =>
        if (if b1 = 0xE0 then decide (0xA0 ≤ b2) && decide (b2 < 0xC0)
            else if b1 = 0xED then decide (0x80 ≤ b2) && decide (b2 < 0xA0)
            else isCont b2) && isCont b3 then
          (utf8DecodeGo fuel rest3).map fun cps =>
            ((b1 - 0xE0) * 0x1000 + (b2 - 0x80) * 0x40 + (b3 - 0x80)) :: cps
        else none
      | _ => none
    else if b1 < 0xF5 then
      match rest with
      | b2 :: b3 :: b4 :: rest4 =>
        if (if b1 = 0xF0 then decide (0x90 ≤ b2) && decide (b2 < 0xC0)
            else if b1 = 0xF4 then decide (0x80 ≤ b2) && decide (b2 < 0x90)
            else isCont b2) && isCont b3 && isCont b4 then
          (utf8DecodeGo fuel rest4).map fun cps =>
            ((b1 - 0xF0) * 0x40000 + (b2 - 0x80) * 0x1000 + (b3 - 0x80) * 0x40 + (b4 - 0x80)) :: cps
        else none
      | _ => none
    else none

/-- Strict UTF-8 decode of a byte list to codepoints. -/
def utf8DecodeCps (b : List Nat) : Option (List Nat) :=
  utf8DecodeGo b.length b

/-- Python bytes.decode() (UTF-8, strict): none models the propagated
UnicodeDecodeError. -/
def utf8Decode (b : List Nat) : Option String :=
  (utf8DecodeCps b).map fun cps => String.mk (cps.map Char.ofNat)

/-- Byte-string literal helper: the bytes of an ASCII/UTF-8 Python
bytes literal. -/
def pyBytes (s : String) : List Nat :=
  utf8Encode s

/-! ## The field layer

Each Python field class is modelled by its coercion step (marshmallow's
underscore-deserialize hook), its validation hook, and the public
deserialize pipeline marshmallow's Field.deserialize drives: reject None
(with the default allow_none = False), coerce, then validate. -/

/-- marshmallow Field.deserialize with default configuration
(required/allow_none defaults): None is rejected with the
"Field may not be null." ValidationError before the field-specific
coercion hook runs; otherwise coercion runs, then validation, and the
coerced value is returned. -/
def fieldDeserialize (coerce : Value → Except FieldError Value)
    (validate : Value → Except FieldError Unit) (v : Value) : Except FieldError Value :=
  match v with
  | .vNone => .error (.validation "Field may not be null.")
  | _ =>
    match coerce v with
    | .error e => .error e
    | .ok out =>
      match validate out with
      | .error e => .error e
      | .ok _ => .ok out

/-- Validation hook of a field with no validators configured
(every field in the sources): always passes. -/
def noValidate (_ : Value) : Except FieldError Unit :=
  .ok ()

/-- marshmallow fields.String coercion: text passes through, bytes are
decoded as UTF-8, anything else is the "Not a valid string."
ValidationError. -/
def string_coerce (v : Value) : Except FieldError Value :=
  match v with
  | .vStr s => .ok (.vStr s)
  | .vBytes b =>
    match utf8Decode b with
    | some s => .ok (.vStr s)
    | none => .error (.validation "Not a valid utf-8 string.")
  | _ => .error (.validation "Not a valid string.")

/-- marshmallow fields.String serialization on the internal type the
field manages (text; ensure_text_type also stringifies other shapes via
str(), which no caller in the sources exercises and integers being the
only other shape given a faithful rendering here). -/
def string_serialize (v : Value) : Except FieldError Value :=
  match v with
  | .vStr s => .ok (.vStr s)
  | .vBytes b =>
    match utf8Decode b with
    | some s => .ok (.vStr s)
    | none => .error .unicodeDecodeError
  | .vInt n => .ok (.vStr (toString n))
  | _ => .error (.typeError "str() of this shape is not modelled")

/-- marshmallow fields.Integer coercion (strict = False): int(value),
with TypeError/ValueError turned into the "Not a valid integer."
ValidationError.  int() accepts ints unchanged, parses decimal text
(also from ASCII byte strings), and rejects everything else.  (Python
bools and floats do not occur in this repository's payloads and are not
modelled.) -/
def integer_coerce (v : Value) : Except FieldError Value :=
  match v with
  | .vInt n => .ok (.vInt n)
  | .vStr s =>
    match pyIntOfString s with
    | some n => .ok (.vInt n)
    | none => .error (.validation "Not a valid integer.")
  | .vBytes b =>
    match utf8Decode b with
    | some s =>
      match pyIntOfString s with
      | some n => .ok (.vInt n)
      | none => .error (.validation "Not a valid integer.")
    | none => .error (.validation "Not a valid integer.")
  | _ => .error (.validation "Not a valid integer.")

/-- marshmallow fields.Integer serialization (as_string = False):
_format_num, i.e. int(value); the integer is returned in its native
form, and a non-numeric internal value raises an uncaught
TypeError/ValueError. -/
def integer_serialize (v : Value) : Except FieldError Value :=
  match v with
  | .vInt n => .ok (.vInt n)
  | .vStr s =>
    match pyIntOfString s with
    | some n => .ok (.vInt n)
    | none => .error (.valueError "invalid literal for int() with base 10")
  | _ => .error (.typeError "int() argument must be a string or a number")

/-- PositiveInteger._validate from base.py: raise
InvalidInputData(f-string of the field name and " must be a positive
integer.") unless the value is greater than zero.  The value reaching
it from deserialize is always an int; comparing any other shape to 0
would be a Python TypeError. -/
def positive_integer_validate (name : String) (v : Value) : Except FieldError Unit :=
  match v with
  | .vInt n =>
    if n > 0 then .ok ()
    else .error (.invalidInputData (name ++ " must be a positive integer."))
  | _ => .error (.typeError "'>' not supported between these instances")

/-- The element-processing loop of marshmallow fields.List._deserialize:
apply the element field's full deserialize to each item at its index,
collecting converted values and an index-keyed error list; a
ValidationError from an element is recorded under its index, any other
exception propagates immediately. -/
def list_collect (elemDeserialize : Value → Except FieldError Value) :
    List Value → Nat → Except FieldError (List Value × List (Nat × FieldError))
  | [], _ => .ok ([], [])
  | x :: xs, idx =>
    match elemDeserialize x with
    | .ok y =>
      match list_collect elemDeserialize xs (idx + 1) with
      | .ok (rs, es) => .ok (y :: rs, es)
      | .error e => .error e
    | .error e =>
      if isValidationError e then
        match list_collect elemDeserialize xs (idx + 1) with
        | .ok (rs, es) => .ok (rs, (idx, e) :: es)
        | .error e2 => .error e2
      else .error e

/-- marshmallow fields.List._deserialize: the input must be iterable and
not a str (a Python list, or bytes, which iterate as ints), otherwise
the "Not a valid list." ValidationError; then every element is
converted in order and, if any index recorded an error, a
ValidationError carrying the index-keyed errors is raised with no
partial result returned. -/
def list_items_deserialize (elemDeserialize : Value → Except FieldError Value)
    (items : List Value) : Except FieldError Value :=
  match list_collect elemDeserialize items 0 with
  | .ok (rs, []) => .ok (.vList rs)
  | .ok (_, p :: ps) => .error (.validationList (p :: ps))
  | .error e => .error e

/-- The shape dispatch of marshmallow fields.List._deserialize: lists
iterate as themselves, bytes iterate as their byte values, and str and
the non-iterable shapes are the "Not a valid list." ValidationError. -/
def list_coerce (elemDeserialize : Value → Except FieldError Value) (v : Value) :
    Except FieldError Value :=
  match v with
  | .vList l => list_items_deserialize elemDeserialize l
  | .vBytes b => list_items_deserialize elemDeserialize (b.map fun n => .vInt (Int.ofNat n))
  | _ => .error (.validation "Not a valid list.")

/-- A Python list comprehension applying a fallible conversion to every
item in order; the first failure propagates and no partial result is
produced. -/
def exceptMapList (f : Value → Except FieldError Value) :
    List Value → Except FieldError (List Value)
  | [] => .ok []
  | x :: xs =>
    match f x with
    | .ok y => (exceptMapList f xs).map fun ys => y :: ys
    | .error e => .error e

/-- marshmallow fields.List._serialize: the element field's serialize
applied to every item in order; an element failure propagates.  A
non-list internal value is outside the type the field manages. -/
def list_serialize (elemSerialize : Value → Except FieldError Value) (v : Value) :
    Except FieldError Value :=
  match v with
  | .vList l => (exceptMapList elemSerialize l).map .vList
  | _ => .error (.typeError "this shape is not iterable")

/-- StringList.__init__ from base.py: kwargs.pop of "delimiter" with
default ",". -/
def string_list_init_delimiter (delimiter? : Option String) : String :=
  delimiter?.getD ","

/-- StringList._deserialize from base.py: if the value is not a list it
is replaced by value.split(delimiter) — which for text splits with no
trimming and no empty-segment filtering, for bytes raises TypeError
(split called with a str delimiter), and for shapes without a split
method (int, None) raises AttributeError — then List._deserialize runs
on the result. -/
def string_list_coerce (delimiter : String)
    (elemDeserialize : Value → Except FieldError Value) (v : Value) :
    Except FieldError Value :=
  match v with
  | .vList l => list_coerce elemDeserialize (.vList l)
  | .vStr s => list_coerce elemDeserialize (.vList ((pySplit s delimiter).map .vStr))
  | .vBytes _ => .error (.typeError "a bytes-like object is required, not str")
  | .vInt _ => .error (.attributeError "int" "split")
  | .vNone => .error (.attributeError "NoneType" "split")

/-- Label._deserialize from label.py: bytes pass through unchanged,
anything else gets value.encode() — UTF-8 for text, AttributeError for
shapes without an encode method. -/
def label_coerce (v : Value) : Except FieldError Value :=
  match v with
  | .vBytes b => .ok (.vBytes b)
  | .vStr s => .ok (.vBytes (utf8Encode s))
  | .vInt _ => .error (.attributeError "int" "encode")
  | .vList _ => .error (.attributeError "list" "encode")
  | .vNone => .error (.attributeError "NoneType" "encode")

/-- Label._serialize from label.py: value.decode of UTF-8 — strict
decoding of bytes, whose UnicodeDecodeError propagates uncaught; a
non-bytes internal value has no decode method. -/
def label_serialize (v : Value) : Except FieldError Value :=
  match v with
  | .vBytes b =>
    match utf8Decode b with
    | some s => .ok (.vStr s)
    | none => .error .unicodeDecodeError
  | .vStr _ => .error (.attributeError "str" "decode")
  | .vInt _ => .error (.attributeError "int" "decode")
  | .vList _ => .error (.attributeError "list" "decode")
  | .vNone => .error (.attributeError "NoneType" "decode")

/-- Full deserialize of the String field. -/
def string_field_deserialize (v : Value) : Except FieldError Value :=
  fieldDeserialize string_coerce noValidate v

/-- Full deserialize of the Integer field. -/
def integer_field_deserialize (v : Value) : Except FieldError Value :=
  fieldDeserialize integer_coerce noValidate v

/-- Full deserialize of the PositiveInteger field (Integer's coercion,
PositiveInteger's validation), parameterized by the field's bound name
used in the error message. -/
def positive_integer_deserialize (name : String) (v : Value) : Except FieldError Value :=
  fieldDeserialize integer_coerce (positive_integer_validate name) v

/-- Full deserialize of a List field over a given element field. -/
def list_field_deserialize (elemDeserialize : Value → Except FieldError Value) (v : Value) :
    Except FieldError Value :=
  fieldDeserialize (list_coerce elemDeserialize) noValidate v

/-- Full deserialize of a StringList field over a delimiter and an
element field. -/
def string_list_field_deserialize (delimiter : String)
    (elemDeserialize : Value → Except FieldError Value) (v : Value) :
    Except FieldError Value :=
  fieldDeserialize (string_list_coerce delimiter elemDeserialize) noValidate v

/-- Full deserialize of the Label field. -/
def label_field_deserialize (v : Value) : Except FieldError Value :=
  fieldDeserialize label_coerce noValidate v

/-! ## BaseField construction and the click external type tags -/

/-- The click parameter types the fields advertise (click.STRING,
click.INT). -/
inductive ClickType where
  | STRING
  | INT

/-- BaseField.__init__ from base.py: kwargs.pop("click", None) stores
the click configuration on the field and forwards the remaining kwargs
to the cooperating base class.  Keyword maps have unique keys, so
removing every "click" entry from an association list models dict.pop. -/
def base_field_init {α : Type} (kwargs : List (String × α)) :
    Option α × List (String × α) :=
  (kwargs.lookup "click", kwargs.filter fun p => p.1 != "click")

/-- BaseField.click_type, the class-level default tag. -/
def base_field_click_type : ClickType :=
  .STRING

/-- String inherits BaseField's tag. -/
def string_field_click_type : ClickType :=
  base_field_click_type

/-- List inherits BaseField's tag. -/
def list_field_click_type : ClickType :=
  base_field_click_type

/-- StringList inherits List's tag. -/
def string_list_click_type : ClickType :=
  list_field_click_type

/-- Integer overrides click_type with click.INT. -/
def integer_click_type : ClickType :=
  .INT

/-- PositiveInteger inherits Integer's tag. -/
def positive_integer_click_type : ClickType :=
  integer_click_type

/-- Label inherits BaseField's tag. -/
def label_click_type : ClickType :=
  base_field_click_type

/-- Round trip of a field: serializing the internal value and
deserializing the result restores the internal value. -/
def roundTrip (ser deser : Value → Except FieldError Value) (v : Value) : Prop :=
  (ser v >>= deser) = .ok v

theorem char_toNat_ofNat_of_valid {n : Nat} (h : n.isValidChar) : (Char.ofNat n).toNat = n := by
  unfold Char.ofNat
  rw [dif_pos h]
  rfl

theorem utf8EncodeCps_cons (cp : Nat) (cps : List Nat) :
    utf8EncodeCps (cp :: cps) = utf8EncodeCp cp ++ utf8EncodeCps cps := by
  simp [utf8EncodeCps]

set_option maxRecDepth 4000 in
theorem utf8DecodeGo_spec (fuel : Nat) :
    ∀ l cps, utf8DecodeGo fuel l = some cps →
      (∀ cp ∈ cps, cp.isValidChar) ∧ utf8EncodeCps cps = l := by
  induction fuel with
  | zero =>
    intro l cps h
    cases l with
    | nil =>
      have hc : ([] : List Nat) = cps := Option.some.inj h
      subst hc
      exact ⟨by simp, by simp [utf8EncodeCps]⟩
    | cons b1 rest => exact Option.noConfusion h
  | succ fuel ih =>
    intro l cps h
    cases l with
    | nil =>
      have hc : ([] : List Nat) = cps := Option.some.inj h
      subst hc
      exact ⟨by simp, by simp [utf8EncodeCps]⟩
    | cons b1 rest =>
      simp only [utf8DecodeGo] at h
      split at h
      · -- ASCII byte
        next h1 =>
        rw [Option.map_eq_some'] at h
        obtain ⟨cps', hdec, rfl⟩ := h
        obtain ⟨hv, he⟩ := ih rest cps' hdec
        refine ⟨?_, ?_⟩
        · intro cp hcp
          cases hcp with
          | head => unfold Nat.isValidChar; omega
          | tail _ hmem => exact hv _ hmem
        · rw [utf8EncodeCps_cons, he]
          unfold utf8EncodeCp
          rw [if_pos h1]
          rfl
      · next h1 =>
        split at h
        · exact Option.noConfusion h
        · next h2 =>
          split at h
          · -- two-byte sequence
            next h3 =>
            split at h
            · split at h
              · next hc =>
                rw [Option.map_eq_some'] at h
                obtain ⟨cps', hdec, rfl⟩ := h
                obtain ⟨hv, he⟩ := ih _ cps' hdec
                simp [isCont] at hc
                refine ⟨?_, ?_⟩
                · intro cp hcp
                  cases hcp with
                  | head => unfold Nat.isValidChar; omega
                  | tail _ hmem => exact hv _ hmem
                · rw [utf8EncodeCps_cons, he]
                  unfold utf8EncodeCp
                  rw [if_neg (by omega), if_pos (by omega)]
                  simp only [List.cons_append, List.nil_append, List.cons.injEq]
                  exact ⟨by omega, by omega, trivial⟩
              · exact Option.noConfusion h
            · exact Option.noConfusion h
          · next h3 =>
            split at h
            · -- three-byte sequence
              next h4 =>
              split at h
              · -- rest = b2 :: b3 :: rest3
                by_cases hE0 : b1 = 0xE0
                · rw [if_pos hE0] at h
                  split at h
                  · next hg =>
                    rw [Option.map_eq_some'] at h
                    obtain ⟨cps', hdec, rfl⟩ := h
                    obtain ⟨hv, he⟩ := ih _ cps' hdec
                    simp [isCont] at hg
                    subst hE0
                    refine ⟨?_, ?_⟩
                    · intro cp hcp
                      cases hcp with
                      | head => unfold Nat.isValidChar; omega
                      | tail _ hmem => exact hv _ hmem
                    · rw [utf8EncodeCps_cons, he]
                      unfold utf8EncodeCp
                      rw [if_neg (by omega), if_neg (by omega), if_pos (by omega)]
                      simp only [List.cons_append, List.nil_append, List.cons.injEq]
                      exact ⟨by omega, by omega, by omega, trivial⟩
                  · exact Option.noConfusion h
                · rw [if_neg hE0] at h
                  by_cases hED : b1 = 0xED
                  · rw [if_pos hED] at h
                    split at h
                    · next hg =>
                      rw [Option.map_eq_some'] at h
                      obtain ⟨cps', hdec, rfl⟩ := h
                      obtain ⟨hv, he⟩ := ih _ cps' hdec
                      simp [isCont] at hg
                      subst hED
                      refine ⟨?_, ?_⟩
                      · intro cp hcp
                        cases hcp with
                        | head => unfold Nat.isValidChar; omega
                        | tail _ hmem => exact hv _ hmem
                      · rw [utf8EncodeCps_cons, he]
                        unfold utf8EncodeCp
                        rw [if_neg (by omega), if_neg (by omega), if_pos (by omega)]
                        simp only [List.cons_append, List.nil_append, List.cons.injEq]
                        exact ⟨by omega, by omega, by omega, trivial⟩
                    · exact Option.noConfusion h
                  · rw [if_neg hED] at h
                    split at h
                    · next hg =>
                      rw [Option.map_eq_some'] at h
                      obtain ⟨cps', hdec, rfl⟩ := h
                      obtain ⟨hv, he⟩ := ih _ cps' hdec
                      simp [isCont] at hg
                      refine ⟨?_, ?_⟩
                      · intro cp hcp
                        cases hcp with
                        | head => unfold Nat.isValidChar; omega
                        | tail _ hmem => exact hv _ hmem
                      · rw [utf8EncodeCps_cons, he]
                        unfold utf8EncodeCp
                        rw [if_neg (by omega), if_neg (by omega), if_pos (by omega)]
                        simp only [List.cons_append, List.nil_append, List.cons.injEq]
                        exact ⟨by omega, by omega, by omega, trivial⟩
                    · exact Option.noConfusion h
              · exact Option.noConfusion h
            · next h4 =>
              split at h
              · -- four-byte sequence
                next h5 =>
                split at h
                · -- rest = b2 :: b3 :: b4 :: rest4
                  by_cases hF0 : b1 = 0xF0
                  · rw [if_pos hF0] at h
                    split at h
                    · next hg =>
                      rw [Option.map_eq_some'] at h
                      obtain ⟨cps', hdec, rfl⟩ := h
                      obtain ⟨hv, he⟩ := ih _ cps' hdec
                      simp [isCont] at hg
                      subst hF0
                      refine ⟨?_, ?_⟩
                      · intro cp hcp
                        cases hcp with
                        | head => unfold Nat.isValidChar; omega
                        | tail _ hmem => exact hv _ hmem
                      · rw [utf8EncodeCps_cons, he]
                        unfold utf8EncodeCp
                        rw [if_neg (by omega), if_neg (by omega), if_neg (by omega)]
                        simp only [List.cons_append, List.nil_append, List.cons.injEq]
                        exact ⟨by omega, by omega, by omega, by omega, trivial⟩
                    · exact Option.noConfusion h
                  · rw [if_neg hF0] at h
                    by_cases hF4 : b1 = 0xF4
                    · rw [if_pos hF4] at h
                      split at h
                      · next hg =>
                        rw [Option.map_eq_some'] at h
                        obtain ⟨cps', hdec, rfl⟩ := h
                        obtain ⟨hv, he⟩ := ih _ cps' hdec
                        simp [isCont] at hg
                        subst hF4
                        refine ⟨?_, ?_⟩
                        · intro cp hcp
                          cases hcp with
                          | head => unfold Nat.isValidChar; omega
                          | tail _ hmem => exact hv _ hmem
                        · rw [utf8EncodeCps_cons, he]
                          unfold utf8EncodeCp
                          rw [if_neg (by omega), if_neg (by omega), if_neg (by omega)]
                          simp only [List.cons_append, List.nil_append, List.cons.injEq]
                          exact ⟨by omega, by omega, by omega, by omega, trivial⟩
                      · exact Option.noConfusion h
                    · rw [if_neg hF4] at h
                      split at h
                      · next hg =>
                        rw [Option.map_eq_some'] at h
                        obtain ⟨cps', hdec, rfl⟩ := h
                        obtain ⟨hv, he⟩ := ih _ cps' hdec
                        simp [isCont] at hg
                        refine ⟨?_, ?_⟩
                        · intro cp hcp
                          cases hcp with
                          | head => unfold Nat.isValidChar; omega
                          | tail _ hmem => exact hv _ hmem
                        · rw [utf8EncodeCps_cons, he]
                          unfold utf8EncodeCp
                          rw [if_neg (by omega), if_neg (by omega), if_neg (by omega)]
                          simp only [List.cons_append, List.nil_append, List.cons.injEq]
                          exact ⟨by omega, by omega, by omega, by omega, trivial⟩
                      · exact Option.noConfusion h
                · exact Option.noConfusion h
              · exact Option.noConfusion h

/-- Pointwise inverse of Char.ofNat on valid codepoints, lifted to lists. -/
theorem map_toNat_map_ofNat (cps : List Nat) (h : ∀ cp ∈ cps, cp.isValidChar) :
    (cps.map Char.ofNat).map Char.toNat = cps := by
  induction cps with
  | nil => rfl
  | cons c cs ih =>
    simp only [List.map_cons, List.cons.injEq]
    refine ⟨char_toNat_ofNat_of_valid (h c (List.mem_cons_self c cs)), ?_⟩
    exact ih fun cp hcp => h cp (List.mem_cons_of_mem c hcp)

/-- Strict UTF-8 decoding has encoding as a left inverse: any byte string
bytes.decode accepts is restored by str.encode of the decoded text. -/
theorem utf8Encode_decode {b : List Nat} {s : String} (h : utf8Decode b = some s) :
    utf8Encode s = b := by
  unfold utf8Decode at h
  rw [Option.map_eq_some'] at h
  obtain ⟨cps, hdec, rfl⟩ := h
  obtain ⟨hv, he⟩ := utf8DecodeGo_spec b.length b cps hdec
  unfold utf8Encode
  rw [show (String.mk (cps.map Char.ofNat)).data = cps.map Char.ofNat from rfl]
  rw [map_toNat_map_ofNat cps hv]
  exact he

/-! ## Behavior of the List element loop -/

theorem list_collect_of_exceptMapList (ed : Value → Except FieldError Value) :
    ∀ (l rs : List Value) (n : Nat),
      exceptMapList ed l = .ok rs → list_collect ed l n = .ok (rs, []) := by
  intro l
  induction l with
  | nil =>
    intro rs n h
    have hc : ([] : List Value) = rs := Except.ok.inj h
    subst hc
    rfl
  | cons x xs ih =>
    intro rs n h
    simp only [exceptMapList] at h
    cases hx : ed x with
    | error e => rw [hx] at h; exact Except.noConfusion h
    | ok y =>
      rw [hx] at h
      cases hxs : exceptMapList ed xs with
      | error e => rw [hxs] at h; exact Except.noConfusion h
      | ok ys =>
        rw [hxs] at h
        have hc : y :: ys = rs := Except.ok.inj h
        subst hc
        simp only [list_collect, hx, ih ys (n + 1) hxs]

theorem list_collect_nonfatal (ed : Value → Except FieldError Value) :
    ∀ (l : List Value) (n : Nat),
      (∀ x ∈ l, ∀ e, ed x = .error e → isValidationError e = true) →
      ∃ rs es, list_collect ed l n = .ok (rs, es) := by
  intro l
  induction l with
  | nil => intro n _; exact ⟨[], [], rfl⟩
  | cons x xs ih =>
    intro n hnf
    obtain ⟨rs, es, hxs⟩ := ih (n + 1) fun z hz => hnf z (List.mem_cons_of_mem x hz)
    cases hx : ed x with
    | ok y =>
      refine ⟨y :: rs, es, ?_⟩
      simp only [list_collect, hx, hxs]
    | error e =>
      have hve := hnf x (List.mem_cons_self x xs) e hx
      refine ⟨rs, (n, e) :: es, ?_⟩
      simp only [list_collect, hx, hve, if_pos, hxs]

theorem list_collect_error_mem (ed : Value → Except FieldError Value) :
    ∀ (l₁ : List Value) (x : Value) (l₂ : List Value) (e : FieldError) (n : Nat),
      (∀ z ∈ l₁ ++ x :: l₂, ∀ e', ed z = .error e' → isValidationError e' = true) →
      ed x = .error e →
      ∃ rs es, list_collect ed (l₁ ++ x :: l₂) n = .ok (rs, es) ∧ (n + l₁.length, e) ∈ es := by
  intro l₁
  induction l₁ with
  | nil =>
    intro x l₂ e n hnf hx
    have hve := hnf x (List.mem_cons_self x l₂) e hx
    obtain ⟨rs, es, h₂⟩ := list_collect_nonfatal ed l₂ (n + 1)
      fun z hz => hnf z (List.mem_cons_of_mem x hz)
    refine ⟨rs, (n, e) :: es, ?_, ?_⟩
    · simp only [List.nil_append, list_collect, hx, hve, if_pos, h₂]
    · simp
  | cons z l₁' ih =>
    intro x l₂ e n hnf hx
    have hnf' : ∀ w ∈ l₁' ++ x :: l₂, ∀ e', ed w = .error e' → isValidationError e' = true :=
      fun w hw => hnf w (List.mem_cons_of_mem z hw)
    obtain ⟨rs, es, hcol, hmem⟩ := ih x l₂ e (n + 1) hnf' hx
    cases hz : ed z with
    | ok y =>
      refine ⟨y :: rs, es, ?_, ?_⟩
      · simp only [List.cons_append, list_collect, hz, List.append_eq, hcol]
      · simpa [Nat.add_comm, Nat.add_assoc, Nat.add_left_comm] using hmem
    | error ez =>
      have hvez := hnf z (List.mem_cons_self z _) ez hz
      refine ⟨rs, (n, ez) :: es, ?_, ?_⟩
      · simp only [List.cons_append, list_collect, hz, hvez, if_pos, List.append_eq, hcol]
      · right
        simpa [Nat.add_comm, Nat.add_assoc, Nat.add_left_comm] using hmem
/-! ## Claims -/

/-- C1: StringList.deserialize of an input that is already a list
bypasses splitting and coincides with List's deserialize, while a string
input is split on the configured delimiter (default ",") into an ordered
sequence of substrings with no trimming and no empty-segment filtering,
to which List's per-element conversion is applied; with a String element
field, "a,b,c" gives ["a","b","c"] and, with delimiter ";", "a;b" gives
["a","b"]. -/
theorem C1_string_list_split_behavior :
    (∀ delim ed (l : List Value),
        string_list_field_deserialize delim ed (.vList l)
          = list_field_deserialize ed (.vList l)) ∧
    (∀ delim ed (s : String),
        string_list_field_deserialize delim ed (.vStr s)
          = list_field_deserialize ed (.vList ((pySplit s delim).map .vStr))) ∧
    string_list_init_delimiter none = "," ∧
    string_list_field_deserialize "," string_field_deserialize (.vStr "a,b,c")
      = .ok (.vList [.vStr "a", .vStr "b", .vStr "c"]) ∧
    string_list_field_deserialize ";" string_field_deserialize (.vStr "a;b")
      = .ok (.vList [.vStr "a", .vStr "b"]) ∧
    string_list_field_deserialize "," string_field_deserialize (.vStr "a,,b")
      = .ok (.vList [.vStr "a", .vStr "", .vStr "b"]) ∧
    string_list_field_deserialize "," string_field_deserialize
        (.vList [.vStr "x", .vStr "y"])
      = .ok (.vList [.vStr "x", .vStr "y"]) :=
  ⟨fun _ _ _ => rfl, fun _ _ _ => rfl, rfl, rfl, rfl, rfl, rfl⟩

/-- C4: Label.deserialize returns byte-sequence inputs unchanged and
UTF-8-encodes text inputs, with no length, charset or emptiness
constraint; b"already-bytes" passes through and "text" becomes
b"text". -/
theorem C4_label_deserialize_passthrough_encode :
    (∀ b, label_field_deserialize (.vBytes b) = .ok (.vBytes b)) ∧
    (∀ s, label_field_deserialize (.vStr s) = .ok (.vBytes (utf8Encode s))) ∧
    label_field_deserialize (.vBytes (pyBytes "already-bytes"))
      = .ok (.vBytes (pyBytes "already-bytes")) ∧
    label_field_deserialize (.vStr "text") = .ok (.vBytes [116, 101, 120, 116]) :=
  ⟨fun _ => rfl, fun _ => rfl, rfl, rfl⟩

/-- C6 fails as stated: StringList.deserialize of the integer input 5,
which is neither a list nor a string, does not fail with a
ValidationError — the source calls value.split, so the failure is an
AttributeError (int has no split method), which is not of the
validation kind. -/
theorem C6_counterexample_int_input :
    string_list_field_deserialize "," string_field_deserialize (.vInt 5)
      = .error (.attributeError "int" "split") ∧
    isValidationError (.attributeError "int" "split") = false :=
  ⟨rfl, rfl⟩

/-- C6 amended: StringList.deserialize of an input that is neither a
list nor a string fails, but not with a ValidationError: an integer
input raises AttributeError (no split method), a bytes input raises
TypeError (bytes.split called with a str delimiter), and only None is
rejected with a ValidationError by the generic null check before
splitting is attempted. -/
theorem C6_non_list_non_string_failures :
    (∀ delim ed (n : Int),
        string_list_field_deserialize delim ed (.vInt n)
          = .error (.attributeError "int" "split")) ∧
    (∀ delim ed (b : List Nat),
        string_list_field_deserialize delim ed (.vBytes b)
          = .error (.typeError "a bytes-like object is required, not str")) ∧
    (∀ delim ed,
        string_list_field_deserialize delim ed .vNone
          = .error (.validation "Field may not be null.")) ∧
    isValidationError (.attributeError "int" "split") = false ∧
    isValidationError (.typeError "a bytes-like object is required, not str") = false ∧
    isValidationError (.validation "Field may not be null.") = true :=
  ⟨fun _ _ _ => rfl, fun _ _ _ => rfl, fun _ _ => rfl, rfl, rfl, rfl⟩

/-- C10: Label.deserialize is idempotent on every input it accepts:
whenever it succeeds its result is a byte sequence, and byte sequences
pass through unchanged. -/
theorem C10_label_deserialize_idempotent :
    ∀ v w, label_field_deserialize v = .ok w → label_field_deserialize w = .ok w := by
  intro v w h
  cases v with
  | vStr s =>
    have hc : Value.vBytes (utf8Encode s) = w := Except.ok.inj h
    subst hc
    rfl
  | vBytes b =>
    have hc : Value.vBytes b = w := Except.ok.inj h
    subst hc
    rfl
  | vInt n => exact Except.noConfusion h
  | vList l => exact Except.noConfusion h
  | vNone => exact Except.noConfusion h

/-- Witness for C10 at the text input "text". -/
theorem C10_witness :
    label_field_deserialize (.vBytes [116, 101, 120, 116])
      = .ok (.vBytes [116, 101, 120, 116]) :=
  C10_label_deserialize_idempotent (.vStr "text") (.vBytes [116, 101, 120, 116]) rfl

/-- C9: the click configuration key is consumed by BaseField's
constructor and not forwarded to the cooperating base initializer, and
the click external type tag is STRING by default for every field kind
while Integer (and its PositiveInteger variant) carries INT. -/
theorem C9_click_consumed_and_tags :
    (∀ (α : Type) (kwargs : List (String × α)),
        (base_field_init kwargs).1 = kwargs.lookup "click" ∧
        "click" ∉ (base_field_init kwargs).2.map Prod.fst) ∧
    base_field_click_type = .STRING ∧
    string_field_click_type = .STRING ∧
    list_field_click_type = .STRING ∧
    string_list_click_type = .STRING ∧
    label_click_type = .STRING ∧
    integer_click_type = .INT ∧
    positive_integer_click_type = .INT := by
  refine ⟨fun α kwargs => ⟨rfl, ?_⟩, rfl, rfl, rfl, rfl, rfl, rfl, rfl⟩
  intro hmem
  rcases List.mem_map.mp hmem with ⟨p, hp, hfst⟩
  have hne := List.of_mem_filter hp
  rw [hfst] at hne
  simp at hne

/-- C3: PositiveInteger validation fails with the layer's validation
error (InvalidInputData), whose message is the field name followed by
" must be a positive integer." (the source message carries a trailing
period), whenever the deserialized integer is at most 0 — zero is
rejected — so deserializing "0" and "-5" fails while "1" succeeds and
returns 1. -/
theorem C3_positive_integer_strictly_positive :
    (∀ name (n : Int), n ≤ 0 →
        positive_integer_deserialize name (.vInt n)
          = .error (.invalidInputData (name ++ " must be a positive integer."))) ∧
    (∀ name s (n : Int), pyIntOfString s = some n → n ≤ 0 →
        positive_integer_deserialize name (.vStr s)
          = .error (.invalidInputData (name ++ " must be a positive integer."))) ∧
    (∀ msg, isValidationError (.invalidInputData msg) = true) ∧
    positive_integer_deserialize "n" (.vStr "0")
      = .error (.invalidInputData "n must be a positive integer.") ∧
    positive_integer_deserialize "n" (.vStr "-5")
      = .error (.invalidInputData "n must be a positive integer.") ∧
    positive_integer_deserialize "n" (.vStr "1") = .ok (.vInt 1) := by
  have hval : ∀ name (n : Int), n ≤ 0 →
      positive_integer_validate name (.vInt n)
        = .error (.invalidInputData (name ++ " must be a positive integer.")) := by
    intro name n h
    simp only [positive_integer_validate]
    rw [if_neg (by omega)]
  refine ⟨?_, ?_, fun _ => rfl, rfl, rfl, rfl⟩
  · intro name n h
    simp only [positive_integer_deserialize, fieldDeserialize, integer_coerce, hval name n h]
  · intro name s n hparse h
    simp only [positive_integer_deserialize, fieldDeserialize, integer_coerce, hparse,
      hval name n h]

/-- Witness for C3 at the integer input -7 and the textual input "-09". -/
theorem C3_witness :
    positive_integer_deserialize "num" (.vInt (-7))
      = .error (.invalidInputData "num must be a positive integer.") ∧
    positive_integer_deserialize "num" (.vStr "-09")
      = .error (.invalidInputData "num must be a positive integer.") :=
  ⟨C3_positive_integer_strictly_positive.1 "num" (-7) (by decide),
   C3_positive_integer_strictly_positive.2.1 "num" "-09" (-9) rfl (by decide)⟩

/-- C5: Label.serialize of a byte sequence returns its UTF-8 decoding
whenever the bytes are valid UTF-8 and otherwise fails with the
propagated UnicodeDecodeError, which is not of the validation kind. -/
theorem C5_label_serialize_utf8 :
    (∀ b s, utf8Decode b = some s → label_serialize (.vBytes b) = .ok (.vStr s)) ∧
    (∀ b, utf8Decode b = none →
        label_serialize (.vBytes b) = .error .unicodeDecodeError) ∧
    isValidationError .unicodeDecodeError = false := by
  refine ⟨?_, ?_, rfl⟩
  · intro b s h
    simp only [label_serialize, h]
  · intro b h
    simp only [label_serialize, h]

/-- Witness for C5 at the valid bytes b"abc" and the invalid byte 0xFF. -/
theorem C5_witness :
    label_serialize (.vBytes [97, 98, 99]) = .ok (.vStr "abc") ∧
    label_serialize (.vBytes [255]) = .error .unicodeDecodeError :=
  ⟨C5_label_serialize_utf8.1 [97, 98, 99] "abc" rfl,
   C5_label_serialize_utf8.2.1 [255] rfl⟩

/-- C8: Integer.deserialize fails with the "Not a valid integer."
ValidationError whenever the text input cannot be parsed as a base-10
integer, in particular on "not-a-number". -/
theorem C8_integer_rejects_malformed :
    (∀ s, pyIntOfString s = none →
        integer_field_deserialize (.vStr s) = .error (.validation "Not a valid integer.")) ∧
    isValidationError (.validation "Not a valid integer.") = true ∧
    integer_field_deserialize (.vStr "not-a-number")
      = .error (.validation "Not a valid integer.") := by
  refine ⟨?_, rfl, rfl⟩
  intro s h
  simp only [integer_field_deserialize, fieldDeserialize, integer_coerce, h]

/-- Witness for C8 at the input "12x". -/
theorem C8_witness :
    integer_field_deserialize (.vStr "12x") = .error (.validation "Not a valid integer.") :=
  C8_integer_rejects_malformed.1 "12x" rfl

/-- Elementwise round trips lift to the List element loop: serializing
every element succeeds, and collecting the deserialized results
restores the original items with no recorded error. -/
theorem exceptMapList_roundTrip (eS eD : Value → Except FieldError Value) :
    ∀ l : List Value, (∀ x ∈ l, roundTrip eS eD x) →
      ∃ ws, exceptMapList eS l = .ok ws ∧ ∀ n, list_collect eD ws n = .ok (l, []) := by
  intro l
  induction l with
  | nil => exact fun _ => ⟨[], rfl, fun _ => rfl⟩
  | cons x xs ih =>
    intro hrt
    obtain ⟨ws, hser, hcol⟩ := ih fun z hz => hrt z (List.mem_cons_of_mem x hz)
    have hx := hrt x (List.mem_cons_self x xs)
    unfold roundTrip at hx
    cases hsx : eS x with
    | error e =>
      rw [hsx] at hx
      exact Except.noConfusion hx
    | ok w =>
      rw [hsx] at hx
      have hdw : eD w = .ok x := hx
      refine ⟨w :: ws, ?_, ?_⟩
      · simp only [exceptMapList, hsx, hser]
        rfl
      · intro n
        simp only [list_collect, hdw, hcol (n + 1)]

/-- C2: deserialize is a left inverse of serialize on every internal
value a field can legitimately hold: text for String, any integer for
Integer, positive integers for PositiveInteger, elementwise
round-tripping lists for List and StringList, and UTF-8-decodable byte
strings for Label; in particular Integer round-trips 42 and Label
round-trips b"abc". -/
theorem C2_round_trip :
    (∀ s, roundTrip string_serialize string_field_deserialize (.vStr s)) ∧
    (∀ n : Int, roundTrip integer_serialize integer_field_deserialize (.vInt n)) ∧
    (∀ name (n : Int), 0 < n →
        roundTrip integer_serialize (positive_integer_deserialize name) (.vInt n)) ∧
    (∀ eS eD (l : List Value), (∀ x ∈ l, roundTrip eS eD x) →
        roundTrip (list_serialize eS) (list_field_deserialize eD) (.vList l)) ∧
    (∀ eS eD delim (l : List Value), (∀ x ∈ l, roundTrip eS eD x) →
        roundTrip (list_serialize eS) (string_list_field_deserialize delim eD) (.vList l)) ∧
    (∀ b s, utf8Decode b = some s →
        roundTrip label_serialize label_field_deserialize (.vBytes b)) ∧
    roundTrip integer_serialize integer_field_deserialize (.vInt 42) ∧
    roundTrip label_serialize label_field_deserialize (.vBytes (pyBytes "abc")) := by
  refine ⟨fun _ => rfl, fun _ => rfl, ?_, ?_, ?_, ?_, rfl, rfl⟩
  · intro name n h
    unfold roundTrip
    show positive_integer_deserialize name (.vInt n) = .ok (.vInt n)
    simp only [positive_integer_deserialize, fieldDeserialize, integer_coerce,
      positive_integer_validate]
    rw [if_pos h]
  · intro eS eD l hrt
    obtain ⟨ws, hser, hcol⟩ := exceptMapList_roundTrip eS eD l hrt
    unfold roundTrip
    have h1 : list_serialize eS (.vList l) = .ok (.vList ws) := by
      simp only [list_serialize, hser]
      rfl
    rw [h1]
    show list_field_deserialize eD (.vList ws) = .ok (.vList l)
    simp only [list_field_deserialize, fieldDeserialize, list_coerce,
      list_items_deserialize, noValidate, hcol 0]
  · intro eS eD delim l hrt
    obtain ⟨ws, hser, hcol⟩ := exceptMapList_roundTrip eS eD l hrt
    unfold roundTrip
    have h1 : list_serialize eS (.vList l) = .ok (.vList ws) := by
      simp only [list_serialize, hser]
      rfl
    rw [h1]
    show string_list_field_deserialize delim eD (.vList ws) = .ok (.vList l)
    simp only [string_list_field_deserialize, fieldDeserialize, string_list_coerce,
      list_coerce, list_items_deserialize, noValidate, hcol 0]
  · intro b s h
    unfold roundTrip
    have h1 : label_serialize (.vBytes b) = .ok (.vStr s) := by
      simp only [label_serialize, h]
    rw [h1]
    show label_field_deserialize (.vStr s) = .ok (.vBytes b)
    rw [show label_field_deserialize (.vStr s) = .ok (.vBytes (utf8Encode s)) from rfl,
      utf8Encode_decode h]

/-- Witness for C2's conditional parts: PositiveInteger at 5, List of
Integer at [1, 2], StringList of Integer at [3], Label at b"hi". -/
theorem C2_witness :
    roundTrip integer_serialize (positive_integer_deserialize "num") (.vInt 5) ∧
    roundTrip (list_serialize integer_serialize)
      (list_field_deserialize integer_field_deserialize) (.vList [.vInt 1, .vInt 2]) ∧
    roundTrip (list_serialize integer_serialize)
      (string_list_field_deserialize ";" integer_field_deserialize) (.vList [.vInt 3]) ∧
    roundTrip label_serialize label_field_deserialize (.vBytes [104, 105]) :=
  ⟨C2_round_trip.2.2.1 "num" 5 (by decide),
   C2_round_trip.2.2.2.1 integer_serialize integer_field_deserialize [.vInt 1, .vInt 2]
     (fun x hx => by
       cases hx with
       | head => rfl
       | tail _ h2 =>
         cases h2 with
         | head => rfl
         | tail _ h3 => cases h3),
   C2_round_trip.2.2.2.2.1 integer_serialize integer_field_deserialize ";" [.vInt 3]
     (fun x hx => by
       cases hx with
       | head => rfl
       | tail _ h2 => cases h2),
   C2_round_trip.2.2.2.2.2.1 [104, 105] "hi" rfl⟩

/-- C7: List.deserialize applies the element field's deserialize to
every item in order — succeeding exactly with the elementwise
conversions when they all succeed — and when an element fails with a
validation error (and no element fails fatally) the whole operation
fails with a ValidationError recording the failing index and error,
returning no partial result; List(Integer) on ["1","x","3"] fails
identifying index 1. -/
theorem C7_list_element_conversion :
    (∀ ed (l rs : List Value), exceptMapList ed l = .ok rs →
        list_field_deserialize ed (.vList l) = .ok (.vList rs)) ∧
    (∀ ed (l₁ : List Value) (x : Value) (l₂ : List Value) (e : FieldError),
        (∀ z ∈ l₁ ++ x :: l₂, ∀ e', ed z = .error e' → isValidationError e' = true) →
        ed x = .error e →
        ∃ es, list_field_deserialize ed (.vList (l₁ ++ x :: l₂))
            = .error (.validationList es) ∧ (l₁.length, e) ∈ es) ∧
    list_field_deserialize integer_field_deserialize
        (.vList [.vStr "1", .vStr "x", .vStr "3"])
      = .error (.validationList [(1, .validation "Not a valid integer.")]) := by
  refine ⟨?_, ?_, rfl⟩
  · intro ed l rs h
    have hcol := list_collect_of_exceptMapList ed l rs 0 h
    simp only [list_field_deserialize, fieldDeserialize, list_coerce,
      list_items_deserialize, noValidate, hcol]
  · intro ed l₁ x l₂ e hnf hx
    obtain ⟨rs, es, hcol, hmem⟩ := list_collect_error_mem ed l₁ x l₂ e 0 hnf hx
    cases es with
    | nil => exact absurd hmem (List.not_mem_nil _)
    | cons p ps =>
      refine ⟨p :: ps, ?_, ?_⟩
      · simp only [list_field_deserialize, fieldDeserialize, list_coerce,
          list_items_deserialize, hcol]
      · simpa using hmem

/-- Witness for C7: Integer elements ["7","8"] all succeed, and the
failing middle element of ["1","x","3"] is reported at index 1. -/
theorem C7_witness :
    list_field_deserialize integer_field_deserialize (.vList [.vStr "7", .vStr "8"])
      = .ok (.vList [.vInt 7, .vInt 8]) ∧
    ∃ es, list_field_deserialize integer_field_deserialize
        (.vList [.vStr "1", .vStr "x", .vStr "3"])
      = .error (.validationList es) ∧ (1, FieldError.validation "Not a valid integer.") ∈ es :=
  ⟨C7_list_element_conversion.1 integer_field_deserialize [.vStr "7", .vStr "8"]
      [.vInt 7, .vInt 8] rfl,
   C7_list_element_conversion.2.1 integer_field_deserialize [.vStr "1"] (.vStr "x")
      [.vStr "3"] (.validation "Not a valid integer.")
      (fun z hz => by
        cases hz with
        | head => intro e' he'; exact Except.noConfusion he'
        | tail _ h2 =>
          cases h2 with
          | head =>
            intro e' he'
            cases Except.error.inj he'
            rfl
          | tail _ h3 =>
            cases h3 with
            | head => intro e' he'; exact Except.noConfusion he'
            | tail _ h4 => cases h4)
      rfl⟩
